import Mathlib

/-!
Shallow embedding of the Connect-4 program (`src/main.py`) and proofs of
the specification claims about it.

The board is a fixed 6x7 grid; row 0 is the bottom (gravity) row.  The
win check of the source convolves the boolean occupancy mask of one
player's marker with four length-4 kernels (scipy `convolve2d`, full
mode) and tests whether any output cell reaches 4.
-/

namespace Connect4

/-- The three cell values of the source's `BoardElement` enum. -/
inductive BoardElement where
  | Empty
  | Red
  | Yellow
deriving DecidableEq, Repr

/-- `BoardElement.__bool__`: truthy iff the element is not `Empty`. -/
def elementBool (e : BoardElement) : Bool :=
  decide (e ≠ BoardElement.Empty)

/-- `BoardElement.__str__`: the display glyph of each element. -/
def elementStr : BoardElement → String
  | BoardElement.Empty => "  "
  | BoardElement.Red => "🔴"
  | BoardElement.Yellow => "🟡"

/-- A board state: the 6x7 grid of `Board._board`, row 0 = bottom. -/
abbrev Board := Fin 6 → Fin 7 → BoardElement

/-- `Board.__init__`: the all-Empty starting grid. -/
def Board.init : Board := fun _ _ => BoardElement.Empty

/-! ## Win-detection kernels (`Board.win_detection_kernels`) -/

/-- `np.eye(n)` as a list-of-lists 0/1 matrix. -/
def eye (n : Nat) : List (List Nat) :=
  (List.range n).map fun i => (List.range n).map fun j => if i = j then 1 else 0

/-- `np.fliplr`: reverse each row of a matrix. -/
def fliplr (m : List (List Nat)) : List (List Nat) := m.map List.reverse

def horizontal_kernel : List (List Nat) := [[1, 1, 1, 1]]

def vertical_kernel : List (List Nat) := horizontal_kernel.transpose

def diag1_kernel : List (List Nat) := eye 4

def diag2_kernel : List (List Nat) := fliplr diag1_kernel

def win_detection_kernels : List (List (List Nat)) :=
  [horizontal_kernel, vertical_kernel, diag1_kernel, diag2_kernel]

/-! ## The convolution of `check_winning_move` -/

/-- One entry of the boolean mask `b.board == player`, zero-padded
outside the 6x7 grid as scipy's full-mode convolution does. -/
def cellMatch (b : Board) (p : BoardElement) (i j : Int) : Nat :=
  if h : 0 ≤ i ∧ i < 6 ∧ 0 ≤ j ∧ j < 7 then
    if b ⟨i.toNat, by omega⟩ ⟨j.toNat, by omega⟩ = p then 1 else 0
  else 0

/-- Number of rows of a kernel. -/
def kernelRows (k : List (List Nat)) : Nat := k.length

/-- Number of columns of a kernel. -/
def kernelCols (k : List (List Nat)) : Nat := (k.headD []).length

/-- Sum over one kernel row `row`, whose first entry sits at column
offset `c`: `sum over w at offset c' of w * mask[i, j - c']`. -/
def convRow (b : Board) (p : BoardElement) (i j : Int) : List Nat → Nat → Nat
  | [], _ => 0
  | w :: ws, c => w * cellMatch b p i (j - c) + convRow b p i j ws (c + 1)

/-- Sum over the kernel rows of `k`, the first row at row offset `a`. -/
def convAll (b : Board) (p : BoardElement) (i j : Int) : List (List Nat) → Nat → Nat
  | [], _ => 0
  | row :: rest, a => convRow b p (i - a) j row 0 + convAll b p i j rest (a + 1)

/-- Entry `(i, j)` of `convolve2d(b.board == player, k)` (full mode):
`out[i, j] = sum over (a, c) of k[a][c] * mask[i - a, j - c]`. -/
def conv2dAt (b : Board) (p : BoardElement) (k : List (List Nat)) (i j : Int) : Nat :=
  convAll b p i j k 0

/-- `np.any(convolve2d(b.board == player, kernel) == 4)`: some entry of
the full-mode convolution output equals 4. -/
def convHasFour (b : Board) (p : BoardElement) (k : List (List Nat)) : Bool :=
  (List.range (6 + kernelRows k - 1)).any fun i =>
    (List.range (7 + kernelCols k - 1)).any fun j =>
      conv2dAt b p k (i : Int) (j : Int) == 4

/-- `check_winning_move(b, player)` from the source. -/
def check_winning_move (b : Board) (p : BoardElement) : Bool :=
  win_detection_kernels.any fun k => convHasFour b p k

/-! ## The 69-window specification of the win check -/

/-- Cell lookup by natural coordinates, `Empty` out of bounds. -/
def cellAt (b : Board) (r c : Nat) : BoardElement :=
  if h : r < 6 ∧ c < 7 then b ⟨r, h.1⟩ ⟨c, h.2⟩ else BoardElement.Empty

/-- Modelled from the spec: the 69 length-4 aligned windows of the 6x7
grid, as lists of `(row, column)` coordinates — 24 horizontal,
21 vertical, 12 up-right diagonal, 12 up-left diagonal. -/
def allWindows : List (List (Nat × Nat)) :=
  ((List.range 6).flatMap fun r => (List.range 4).map fun c =>
    (List.range 4).map fun t => (r, c + t)) ++
  ((List.range 3).flatMap fun r => (List.range 7).map fun c =>
    (List.range 4).map fun t => (r + t, c)) ++
  ((List.range 3).flatMap fun r => (List.range 4).map fun c =>
    (List.range 4).map fun t => (r + t, c + t)) ++
  ((List.range 3).flatMap fun r => (List.range 4).map fun c =>
    (List.range 4).map fun t => (r + t, c + 3 - t))

/-- Modelled from the spec: true iff some aligned length-4 window is
fully occupied by marker `p`. -/
def specWin (b : Board) (p : BoardElement) : Bool :=
  allWindows.any fun w => w.all fun rc => cellAt b rc.1 rc.2 == p

/-! ## Reduction of the convolution at each concrete kernel -/

lemma conv_h (b : Board) (p : BoardElement) (i j : Int) :
    conv2dAt b p horizontal_kernel i j =
      cellMatch b p i j + cellMatch b p i (j - 1) +
      cellMatch b p i (j - 2) + cellMatch b p i (j - 3) := by
  simp [conv2dAt, horizontal_kernel, convAll, convRow]
  ring

lemma conv_v (b : Board) (p : BoardElement) (i j : Int) :
    conv2dAt b p vertical_kernel i j =
      cellMatch b p i j + cellMatch b p (i - 1) j +
      cellMatch b p (i - 2) j + cellMatch b p (i - 3) j := by
  have he : vertical_kernel = [[1], [1], [1], [1]] := by decide
  simp [conv2dAt, he, convAll, convRow]
  ring

lemma conv_d1 (b : Board) (p : BoardElement) (i j : Int) :
    conv2dAt b p diag1_kernel i j =
      cellMatch b p i j + cellMatch b p (i - 1) (j - 1) +
      cellMatch b p (i - 2) (j - 2) + cellMatch b p (i - 3) (j - 3) := by
  have he : diag1_kernel = [[1,0,0,0],[0,1,0,0],[0,0,1,0],[0,0,0,1]] := by decide
  simp [conv2dAt, he, convAll, convRow]
  ring

lemma conv_d2 (b : Board) (p : BoardElement) (i j : Int) :
    conv2dAt b p diag2_kernel i j =
      cellMatch b p i (j - 3) + cellMatch b p (i - 1) (j - 2) +
      cellMatch b p (i - 2) (j - 1) + cellMatch b p (i - 3) j := by
  have he : diag2_kernel = [[0,0,0,1],[0,0,1,0],[0,1,0,0],[1,0,0,0]] := by decide
  simp [conv2dAt, he, convAll, convRow]
  ring

lemma cellMatch_eq (b : Board) (p : BoardElement) (i j : Int) :
    cellMatch b p i j =
      if 0 ≤ i ∧ i < 6 ∧ 0 ≤ j ∧ j < 7 ∧ cellAt b i.toNat j.toNat = p then 1 else 0 := by
  unfold cellMatch cellAt
  split
  case isTrue h =>
    have h6 : i.toNat < 6 ∧ j.toNat < 7 := by omega
    rw [dif_pos h6]
    split
    case isTrue hb =>
      rw [if_pos]
      exact ⟨h.1, h.2.1, h.2.2.1, h.2.2.2, hb⟩
    case isFalse hb =>
      rw [if_neg]
      intro hc
      exact hb hc.2.2.2.2
  case isFalse h =>
    rw [if_neg]
    intro hc
    exact h ⟨hc.1, hc.2.1, hc.2.2.1, hc.2.2.2.1⟩

lemma cellMatch_le_one (b : Board) (p : BoardElement) (i j : Int) :
    cellMatch b p i j ≤ 1 := by
  rw [cellMatch_eq]
  split <;> simp

lemma cellMatch_eq_one_iff (b : Board) (p : BoardElement) (i j : Int) :
    cellMatch b p i j = 1 ↔
      0 ≤ i ∧ i < 6 ∧ 0 ≤ j ∧ j < 7 ∧ cellAt b i.toNat j.toNat = p := by
  rw [cellMatch_eq]
  split
  case isTrue h => simp [h]
  case isFalse h => simp [h]

lemma convHasFour_h (b : Board) (p : BoardElement) :
    convHasFour b p horizontal_kernel = true ↔
      ∃ r c : Nat, r < 6 ∧ c < 4 ∧ ∀ t, t < 4 → cellAt b r (c + t) = p := by
  have hkr : kernelRows horizontal_kernel = 1 := rfl
  have hkc : kernelCols horizontal_kernel = 4 := rfl
  unfold convHasFour
  simp only [List.any_eq_true, List.mem_range, beq_iff_eq]
  constructor
  · rintro ⟨i, hi, j, hj, hconv⟩
    rw [conv_h] at hconv
    have l0 := cellMatch_le_one b p i j
    have l1 := cellMatch_le_one b p i ((j : Int) - 1)
    have l2 := cellMatch_le_one b p i ((j : Int) - 2)
    have l3 := cellMatch_le_one b p i ((j : Int) - 3)
    have e0 : cellMatch b p i j = 1 := by omega
    have e1 : cellMatch b p i ((j : Int) - 1) = 1 := by omega
    have e2 : cellMatch b p i ((j : Int) - 2) = 1 := by omega
    have e3 : cellMatch b p i ((j : Int) - 3) = 1 := by omega
    rw [cellMatch_eq_one_iff] at e0 e1 e2 e3
    refine ⟨i, j - 3, by omega, by omega, ?_⟩
    intro t ht
    interval_cases t
    · convert e3.2.2.2.2 using 2 <;> omega
    · convert e2.2.2.2.2 using 2 <;> omega
    · convert e1.2.2.2.2 using 2 <;> omega
    · convert e0.2.2.2.2 using 2 <;> omega
  · rintro ⟨r, c, hr, hc, hall⟩
    have e0 : cellMatch b p r ((c + 3 : Nat) : Int) = 1 :=
      (cellMatch_eq_one_iff b p r _).2
        ⟨by omega, by omega, by omega, by omega, by
          convert hall 3 (by omega) using 2 <;> omega⟩
    have e1 : cellMatch b p r (((c + 3 : Nat) : Int) - 1) = 1 :=
      (cellMatch_eq_one_iff b p r _).2
        ⟨by omega, by omega, by omega, by omega, by
          convert hall 2 (by omega) using 2 <;> omega⟩
    have e2 : cellMatch b p r (((c + 3 : Nat) : Int) - 2) = 1 :=
      (cellMatch_eq_one_iff b p r _).2
        ⟨by omega, by omega, by omega, by omega, by
          convert hall 1 (by omega) using 2 <;> omega⟩
    have e3 : cellMatch b p r (((c + 3 : Nat) : Int) - 3) = 1 :=
      (cellMatch_eq_one_iff b p r _).2
        ⟨by omega, by omega, by omega, by omega, by
          convert hall 0 (by omega) using 2 <;> omega⟩
    refine ⟨r, by omega, c + 3, by omega, ?_⟩
    rw [conv_h]
    omega



lemma convHasFour_v (b : Board) (p : BoardElement) :
    convHasFour b p vertical_kernel = true ↔
      ∃ r c : Nat, r < 3 ∧ c < 7 ∧ ∀ t, t < 4 → cellAt b (r + t) c = p := by
  have hkr : kernelRows vertical_kernel = 4 := rfl
  have hkc : kernelCols vertical_kernel = 1 := rfl
  unfold convHasFour
  simp only [List.any_eq_true, List.mem_range, beq_iff_eq]
  constructor
  · rintro ⟨i, hi, j, hj, hconv⟩
    rw [conv_v] at hconv
    have l0 := cellMatch_le_one b p i j
    have l1 := cellMatch_le_one b p ((i : Int) - 1) j
    have l2 := cellMatch_le_one b p ((i : Int) - 2) j
    have l3 := cellMatch_le_one b p ((i : Int) - 3) j
    have e0 : cellMatch b p i j = 1 := by omega
    have e1 : cellMatch b p ((i : Int) - 1) j = 1 := by omega
    have e2 : cellMatch b p ((i : Int) - 2) j = 1 := by omega
    have e3 : cellMatch b p ((i : Int) - 3) j = 1 := by omega
    rw [cellMatch_eq_one_iff] at e0 e1 e2 e3
    refine ⟨i - 3, j, by omega, by omega, ?_⟩
    intro t ht
    interval_cases t
    · convert e3.2.2.2.2 using 2 <;> omega
    · convert e2.2.2.2.2 using 2 <;> omega
    · convert e1.2.2.2.2 using 2 <;> omega
    · convert e0.2.2.2.2 using 2 <;> omega
  · rintro ⟨r, c, hr, hc, hall⟩
    have e0 : cellMatch b p ((r + 3 : Nat) : Int) c = 1 :=
      (cellMatch_eq_one_iff b p _ c).2
        ⟨by omega, by omega, by omega, by omega, by
          convert hall 3 (by omega) using 2 <;> omega⟩
    have e1 : cellMatch b p (((r + 3 : Nat) : Int) - 1) c = 1 :=
      (cellMatch_eq_one_iff b p _ c).2
        ⟨by omega, by omega, by omega, by omega, by
          convert hall 2 (by omega) using 2 <;> omega⟩
    have e2 : cellMatch b p (((r + 3 : Nat) : Int) - 2) c = 1 :=
      (cellMatch_eq_one_iff b p _ c).2
        ⟨by omega, by omega, by omega, by omega, by
          convert hall 1 (by omega) using 2 <;> omega⟩
    have e3 : cellMatch b p (((r + 3 : Nat) : Int) - 3) c = 1 :=
      (cellMatch_eq_one_iff b p _ c).2
        ⟨by omega, by omega, by omega, by omega, by
          convert hall 0 (by omega) using 2 <;> omega⟩
    refine ⟨r + 3, by omega, c, by omega, ?_⟩
    rw [conv_v]
    omega

lemma convHasFour_d1 (b : Board) (p : BoardElement) :
    convHasFour b p diag1_kernel = true ↔
      ∃ r c : Nat, r < 3 ∧ c < 4 ∧ ∀ t, t < 4 → cellAt b (r + t) (c + t) = p := by
  have hkr : kernelRows diag1_kernel = 4 := rfl
  have hkc : kernelCols diag1_kernel = 4 := rfl
  unfold convHasFour
  simp only [List.any_eq_true, List.mem_range, beq_iff_eq]
  constructor
  · rintro ⟨i, hi, j, hj, hconv⟩
    rw [conv_d1] at hconv
    have l0 := cellMatch_le_one b p i j
    have l1 := cellMatch_le_one b p ((i : Int) - 1) ((j : Int) - 1)
    have l2 := cellMatch_le_one b p ((i : Int) - 2) ((j : Int) - 2)
    have l3 := cellMatch_le_one b p ((i : Int) - 3) ((j : Int) - 3)
    have e0 : cellMatch b p i j = 1 := by omega
    have e1 : cellMatch b p ((i : Int) - 1) ((j : Int) - 1) = 1 := by omega
    have e2 : cellMatch b p ((i : Int) - 2) ((j : Int) - 2) = 1 := by omega
    have e3 : cellMatch b p ((i : Int) - 3) ((j : Int) - 3) = 1 := by omega
    rw [cellMatch_eq_one_iff] at e0 e1 e2 e3
    refine ⟨i - 3, j - 3, by omega, by omega, ?_⟩
    intro t ht
    interval_cases t
    · convert e3.2.2.2.2 using 2 <;> omega
    · convert e2.2.2.2.2 using 2 <;> omega
    · convert e1.2.2.2.2 using 2 <;> omega
    · convert e0.2.2.2.2 using 2 <;> omega
  · rintro ⟨r, c, hr, hc, hall⟩
    have e0 : cellMatch b p ((r + 3 : Nat) : Int) ((c + 3 : Nat) : Int) = 1 :=
      (cellMatch_eq_one_iff b p _ _).2
        ⟨by omega, by omega, by omega, by omega, by
          convert hall 3 (by omega) using 2 <;> omega⟩
    have e1 : cellMatch b p (((r + 3 : Nat) : Int) - 1) (((c + 3 : Nat) : Int) - 1) = 1 :=
      (cellMatch_eq_one_iff b p _ _).2
        ⟨by omega, by omega, by omega, by omega, by
          convert hall 2 (by omega) using 2 <;> omega⟩
    have e2 : cellMatch b p (((r + 3 : Nat) : Int) - 2) (((c + 3 : Nat) : Int) - 2) = 1 :=
      (cellMatch_eq_one_iff b p _ _).2
        ⟨by omega, by omega, by omega, by omega, by
          convert hall 1 (by omega) using 2 <;> omega⟩
    have e3 : cellMatch b p (((r + 3 : Nat) : Int) - 3) (((c + 3 : Nat) : Int) - 3) = 1 :=
      (cellMatch_eq_one_iff b p _ _).2
        ⟨by omega, by omega, by omega, by omega, by
          convert hall 0 (by omega) using 2 <;> omega⟩
    refine ⟨r + 3, by omega, c + 3, by omega, ?_⟩
    rw [conv_d1]
    omega

lemma convHasFour_d2 (b : Board) (p : BoardElement) :
    convHasFour b p diag2_kernel = true ↔
      ∃ r c : Nat, r < 3 ∧ c < 4 ∧ ∀ t, t < 4 → cellAt b (r + t) (c + 3 - t) = p := by
  have hkr : kernelRows diag2_kernel = 4 := rfl
  have hkc : kernelCols diag2_kernel = 4 := rfl
  unfold convHasFour
  simp only [List.any_eq_true, List.mem_range, beq_iff_eq]
  constructor
  · rintro ⟨i, hi, j, hj, hconv⟩
    rw [conv_d2] at hconv
    have l0 := cellMatch_le_one b p i ((j : Int) - 3)
    have l1 := cellMatch_le_one b p ((i : Int) - 1) ((j : Int) - 2)
    have l2 := cellMatch_le_one b p ((i : Int) - 2) ((j : Int) - 1)
    have l3 := cellMatch_le_one b p ((i : Int) - 3) j
    have e0 : cellMatch b p i ((j : Int) - 3) = 1 := by omega
    have e1 : cellMatch b p ((i : Int) - 1) ((j : Int) - 2) = 1 := by omega
    have e2 : cellMatch b p ((i : Int) - 2) ((j : Int) - 1) = 1 := by omega
    have e3 : cellMatch b p ((i : Int) - 3) j = 1 := by omega
    rw [cellMatch_eq_one_iff] at e0 e1 e2 e3
    refine ⟨i - 3, j - 3, by omega, by omega, ?_⟩
    intro t ht
    interval_cases t
    · convert e3.2.2.2.2 using 2 <;> omega
    · convert e2.2.2.2.2 using 2 <;> omega
    · convert e1.2.2.2.2 using 2 <;> omega
    · convert e0.2.2.2.2 using 2 <;> omega
  · rintro ⟨r, c, hr, hc, hall⟩
    have e0 : cellMatch b p ((r + 3 : Nat) : Int) (((c + 3 : Nat) : Int) - 3) = 1 :=
      (cellMatch_eq_one_iff b p _ _).2
        ⟨by omega, by omega, by omega, by omega, by
          convert hall 3 (by omega) using 2 <;> omega⟩
    have e1 : cellMatch b p (((r + 3 : Nat) : Int) - 1) (((c + 3 : Nat) : Int) - 2) = 1 :=
      (cellMatch_eq_one_iff b p _ _).2
        ⟨by omega, by omega, by omega, by omega, by
          convert hall 2 (by omega) using 2 <;> omega⟩
    have e2 : cellMatch b p (((r + 3 : Nat) : Int) - 2) (((c + 3 : Nat) : Int) - 1) = 1 :=
      (cellMatch_eq_one_iff b p _ _).2
        ⟨by omega, by omega, by omega, by omega, by
          convert hall 1 (by omega) using 2 <;> omega⟩
    have e3 : cellMatch b p (((r + 3 : Nat) : Int) - 3) ((c + 3 : Nat) : Int) = 1 :=
      (cellMatch_eq_one_iff b p _ _).2
        ⟨by omega, by omega, by omega, by omega, by
          convert hall 0 (by omega) using 2 <;> omega⟩
    refine ⟨r + 3, by omega, c + 3, by omega, ?_⟩
    rw [conv_d2]
    omega

lemma specWin_iff (b : Board) (p : BoardElement) :
    specWin b p = true ↔
      ((∃ r c : Nat, r < 6 ∧ c < 4 ∧ ∀ t, t < 4 → cellAt b r (c + t) = p) ∨
       (∃ r c : Nat, r < 3 ∧ c < 7 ∧ ∀ t, t < 4 → cellAt b (r + t) c = p) ∨
       (∃ r c : Nat, r < 3 ∧ c < 4 ∧ ∀ t, t < 4 → cellAt b (r + t) (c + t) = p) ∨
       (∃ r c : Nat, r < 3 ∧ c < 4 ∧ ∀ t, t < 4 → cellAt b (r + t) (c + 3 - t) = p)) := by
  unfold specWin allWindows
  simp only [List.any_append, Bool.or_eq_true, List.any_eq_true, List.mem_flatMap,
    List.mem_map, List.mem_range, List.all_eq_true, beq_iff_eq]
  constructor
  · rintro (((⟨x, ⟨r, hr, c, hc, rfl⟩, hall⟩ | ⟨x, ⟨r, hr, c, hc, rfl⟩, hall⟩) |
      ⟨x, ⟨r, hr, c, hc, rfl⟩, hall⟩) | ⟨x, ⟨r, hr, c, hc, rfl⟩, hall⟩)
    · exact Or.inl ⟨r, c, hr, hc, fun t ht =>
        hall _ (List.mem_map.2 ⟨t, List.mem_range.2 ht, rfl⟩)⟩
    · exact Or.inr (Or.inl ⟨r, c, hr, hc, fun t ht =>
        hall _ (List.mem_map.2 ⟨t, List.mem_range.2 ht, rfl⟩)⟩)
    · exact Or.inr (Or.inr (Or.inl ⟨r, c, hr, hc, fun t ht =>
        hall _ (List.mem_map.2 ⟨t, List.mem_range.2 ht, rfl⟩)⟩))
    · exact Or.inr (Or.inr (Or.inr ⟨r, c, hr, hc, fun t ht =>
        hall _ (List.mem_map.2 ⟨t, List.mem_range.2 ht, rfl⟩)⟩))
  · rintro (⟨r, c, hr, hc, hall⟩ | ⟨r, c, hr, hc, hall⟩ | ⟨r, c, hr, hc, hall⟩ |
      ⟨r, c, hr, hc, hall⟩)
    · refine Or.inl (Or.inl (Or.inl ⟨_, ⟨r, hr, c, hc, rfl⟩, ?_⟩))
      rintro y hy
      rcases List.mem_map.1 hy with ⟨t, ht, rfl⟩
      exact hall t (List.mem_range.1 ht)
    · refine Or.inl (Or.inl (Or.inr ⟨_, ⟨r, hr, c, hc, rfl⟩, ?_⟩))
      rintro y hy
      rcases List.mem_map.1 hy with ⟨t, ht, rfl⟩
      exact hall t (List.mem_range.1 ht)
    · refine Or.inl (Or.inr ⟨_, ⟨r, hr, c, hc, rfl⟩, ?_⟩)
      rintro y hy
      rcases List.mem_map.1 hy with ⟨t, ht, rfl⟩
      exact hall t (List.mem_range.1 ht)
    · refine Or.inr ⟨_, ⟨r, hr, c, hc, rfl⟩, ?_⟩
      rintro y hy
      rcases List.mem_map.1 hy with ⟨t, ht, rfl⟩
      exact hall t (List.mem_range.1 ht)

/-- The convolution check and the 69-window check agree on every board
and marker. -/
lemma check_eq_spec (b : Board) (p : BoardElement) :
    check_winning_move b p = specWin b p := by
  have key : (check_winning_move b p = true) ↔ (specWin b p = true) := by
    rw [specWin_iff]
    unfold check_winning_move win_detection_kernels
    simp only [List.any_cons, List.any_nil, Bool.or_eq_true, Bool.or_false]
    rw [convHasFour_h, convHasFour_v, convHasFour_d1, convHasFour_d2]
  cases hc : check_winning_move b p
  case true => exact (key.1 hc).symm
  case false =>
    cases hs : specWin b p
    case false => rfl
    case true =>
      rw [key.2 hs] at hc
      exact absurd hc (by simp)

/-! ## Insertion (`Board.insert`), fullness, rendering, player change -/

/-- The two failure modes observable from `Board.insert`: the source's
`BoardColumnBusyError`, and the `IndexError` numpy raises when the
column index is outside `[-7, 6]`. -/
inductive InsertError where
  | columnBusy
  | indexError
deriving DecidableEq, Repr

/-- Numpy indexing of a length-7 row: indices in `[0, 6]` are used as
is, indices in `[-7, -1]` wrap by adding 7, anything else raises. -/
def normIdx (ci : Int) : Option (Fin 7) :=
  if h : 0 ≤ ci ∧ ci < 7 then some ⟨ci.toNat, by omega⟩
  else if h2 : -7 ≤ ci ∧ ci < 0 then some ⟨(ci + 7).toNat, by omega⟩
  else none

/-- The scan of `Board.insert`: the first (lowest) row of column `c`
whose cell is `Empty`, iterating rows bottom-up as the source's
`for row_idx, row in enumerate(self._board)` does. -/
def findEmptyRow (b : Board) (c : Fin 7) : Option (Fin 6) :=
  (List.finRange 6).find? fun r => b r c == BoardElement.Empty

/-- Write one cell of the grid. -/
def setCell (b : Board) (r : Fin 6) (c : Fin 7) (v : BoardElement) : Board :=
  fun r2 c2 => if r2 = r ∧ c2 = c then v else b r2 c2

/-- `Board.insert(column_idx, player)` in state-passing form: the first
component is the grid after the call (unchanged when the call raises),
the second the raised error, if any. -/
def insert (b : Board) (column_idx : Int) (player : BoardElement) :
    Board × Option InsertError :=
  match normIdx column_idx with
  | none => (b, some InsertError.indexError)
  | some c =>
    match findEmptyRow b c with
    | some r => (setCell b r c player, none)
    | none => (b, some InsertError.columnBusy)

/-- Run a list of `(column, player)` insertions from a board, keeping
the resulting grid of each call (failed calls leave it unchanged). -/
def playMoves (b : Board) (moves : List (Int × BoardElement)) : Board :=
  moves.foldl (fun acc mv => (insert acc mv.1 mv.2).1) b

/-- The gravity invariant: in every column, a non-Empty cell has only
non-Empty cells below it. -/
def gravityOK (b : Board) : Prop :=
  ∀ (c : Fin 7) (r r2 : Fin 6), r2 < r → b r c ≠ BoardElement.Empty →
    b r2 c ≠ BoardElement.Empty

/-- `Board.is_full()`: `self._board.all()` under `BoardElement.__bool__`. -/
def is_full (b : Board) : Bool :=
  (List.finRange 6).all fun r => (List.finRange 7).all fun c => elementBool (b r c)

/-- One display row: the 7 glyphs of board row `r` joined by `"|"`. -/
def rowGlyphs (b : Board) (r : Fin 6) : String :=
  String.intercalate "|" ((List.finRange 7).map fun c => elementStr (b r c))

/-- `Board.print`: the lines printed, top row first — the source loops
over `np.flip(self._board, [0])`, i.e. the rows in reverse order. -/
def Board.print (b : Board) : List String :=
  ((List.finRange 6).reverse).map fun r =>
    String.intercalate "|" ((List.finRange 7).map fun c => elementStr (b r c))

/-- `change_player(p)`: `Yellow if p is Red else Red`. -/
def change_player (p : BoardElement) : BoardElement :=
  if p = BoardElement.Red then BoardElement.Yellow else BoardElement.Red

/-- A board whose column 0 is completely filled (used to exercise the
column-full path on a concrete input). -/
def fullCol0 : Board :=
  fun _ c => if c = 0 then BoardElement.Red else BoardElement.Empty

/-- `check_winning_move` in state-passing form: the source only reads
the grid (no cell assignment occurs in it), so the state component
comes back unchanged. -/
def check_winning_move_run (b : Board) (p : BoardElement) : Bool × Board :=
  (check_winning_move b p, b)

/-- `n` successive calls of `check_winning_move` on the same board
object: the list of results and the final board state. -/
def checkCalls (b : Board) (p : BoardElement) : Nat → List Bool × Board
  | 0 => ([], b)
  | n + 1 =>
    let rb := check_winning_move_run b p
    let rest := checkCalls rb.2 p n
    (rb.1 :: rest.1, rest.2)

/-! ## Properties of the insertion scan -/

lemma findEmptyRow_spec (b : Board) (c : Fin 7) :
    (findEmptyRow b c = none ∧ ∀ r : Fin 6, b r c ≠ BoardElement.Empty) ∨
    (∃ r : Fin 6, findEmptyRow b c = some r ∧ b r c = BoardElement.Empty ∧
      ∀ r2 : Fin 6, r2 < r → b r2 c ≠ BoardElement.Empty) := by
  have hfr : List.finRange 6 = [0, 1, 2, 3, 4, 5] := by decide
  unfold findEmptyRow
  rw [hfr]
  by_cases h0 : b 0 c = BoardElement.Empty
  · refine Or.inr ⟨0, ?_, h0, ?_⟩
    · rw [List.find?_cons_of_pos _ (by simp [h0])]
    · intro r2 hr2
      have hv : (r2 : Nat) < 0 := hr2
      exact absurd hv (Nat.not_lt_zero _)
  by_cases h1 : b 1 c = BoardElement.Empty
  · refine Or.inr ⟨1, ?_, h1, ?_⟩
    · rw [List.find?_cons_of_neg _ (by simp [h0]), List.find?_cons_of_pos _ (by simp [h1])]
    · intro r2 hr2
      have hv : (r2 : Nat) < 1 := hr2
      have hd : r2 = 0 := by
        rcases r2 with ⟨v, hv6⟩
        interval_cases v
        · exact rfl
      rcases hd with rfl
      · exact h0
  by_cases h2 : b 2 c = BoardElement.Empty
  · refine Or.inr ⟨2, ?_, h2, ?_⟩
    · rw [List.find?_cons_of_neg _ (by simp [h0]), List.find?_cons_of_neg _ (by simp [h1]), List.find?_cons_of_pos _ (by simp [h2])]
    · intro r2 hr2
      have hv : (r2 : Nat) < 2 := hr2
      have hd : r2 = 0 ∨ r2 = 1 := by
        rcases r2 with ⟨v, hv6⟩
        interval_cases v
        · exact Or.inl rfl
        · exact Or.inr (rfl)
      rcases hd with rfl | rfl
      · exact h0
      · exact h1
  by_cases h3 : b 3 c = BoardElement.Empty
  · refine Or.inr ⟨3, ?_, h3, ?_⟩
    · rw [List.find?_cons_of_neg _ (by simp [h0]), List.find?_cons_of_neg _ (by simp [h1]), List.find?_cons_of_neg _ (by simp [h2]), List.find?_cons_of_pos _ (by simp [h3])]
    · intro r2 hr2
      have hv : (r2 : Nat) < 3 := hr2
      have hd : r2 = 0 ∨ r2 = 1 ∨ r2 = 2 := by
        rcases r2 with ⟨v, hv6⟩
        interval_cases v
        · exact Or.inl rfl
        · exact Or.inr (Or.inl rfl)
        · exact Or.inr (Or.inr (rfl))
      rcases hd with rfl | rfl | rfl
      · exact h0
      · exact h1
      · exact h2
  by_cases h4 : b 4 c = BoardElement.Empty
  · refine Or.inr ⟨4, ?_, h4, ?_⟩
    · rw [List.find?_cons_of_neg _ (by simp [h0]), List.find?_cons_of_neg _ (by simp [h1]), List.find?_cons_of_neg _ (by simp [h2]), List.find?_cons_of_neg _ (by simp [h3]), List.find?_cons_of_pos _ (by simp [h4])]
    · intro r2 hr2
      have hv : (r2 : Nat) < 4 := hr2
      have hd : r2 = 0 ∨ r2 = 1 ∨ r2 = 2 ∨ r2 = 3 := by
        rcases r2 with ⟨v, hv6⟩
        interval_cases v
        · exact Or.inl rfl
        · exact Or.inr (Or.inl rfl)
        · exact Or.inr (Or.inr (Or.inl rfl))
        · exact Or.inr (Or.inr (Or.inr (rfl)))
      rcases hd with rfl | rfl | rfl | rfl
      · exact h0
      · exact h1
      · exact h2
      · exact h3
  by_cases h5 : b 5 c = BoardElement.Empty
  · refine Or.inr ⟨5, ?_, h5, ?_⟩
    · rw [List.find?_cons_of_neg _ (by simp [h0]), List.find?_cons_of_neg _ (by simp [h1]), List.find?_cons_of_neg _ (by simp [h2]), List.find?_cons_of_neg _ (by simp [h3]), List.find?_cons_of_neg _ (by simp [h4]), List.find?_cons_of_pos _ (by simp [h5])]
    · intro r2 hr2
      have hv : (r2 : Nat) < 5 := hr2
      have hd : r2 = 0 ∨ r2 = 1 ∨ r2 = 2 ∨ r2 = 3 ∨ r2 = 4 := by
        rcases r2 with ⟨v, hv6⟩
        interval_cases v
        · exact Or.inl rfl
        · exact Or.inr (Or.inl rfl)
        · exact Or.inr (Or.inr (Or.inl rfl))
        · exact Or.inr (Or.inr (Or.inr (Or.inl rfl)))
        · exact Or.inr (Or.inr (Or.inr (Or.inr (rfl))))
      rcases hd with rfl | rfl | rfl | rfl | rfl
      · exact h0
      · exact h1
      · exact h2
      · exact h3
      · exact h4
  refine Or.inl ⟨?_, ?_⟩
  · rw [List.find?_cons_of_neg _ (by simp [h0]), List.find?_cons_of_neg _ (by simp [h1]), List.find?_cons_of_neg _ (by simp [h2]), List.find?_cons_of_neg _ (by simp [h3]), List.find?_cons_of_neg _ (by simp [h4]), List.find?_cons_of_neg _ (by simp [h5])]
    rfl
  · intro r
    rcases r with ⟨v, hv6⟩
    interval_cases v
    · exact h0
    · exact h1
    · exact h2
    · exact h3
    · exact h4
    · exact h5

lemma normIdx_coe (c : Fin 7) : normIdx ((c : Nat) : Int) = some c := by
  unfold normIdx
  have hlt := c.isLt
  rw [dif_pos ⟨by omega, by omega⟩]
  exact congrArg some (Fin.ext (by simp))

lemma setCell_self (b : Board) (r : Fin 6) (c : Fin 7) (v : BoardElement) :
    setCell b r c v r c = v := if_pos ⟨rfl, rfl⟩

lemma setCell_frame (b : Board) (r : Fin 6) (c : Fin 7) (v : BoardElement)
    (r2 : Fin 6) (c2 : Fin 7) (h : ¬ (r2 = r ∧ c2 = c)) :
    setCell b r c v r2 c2 = b r2 c2 := if_neg h

lemma insert_of_findEmptyRow_some (b : Board) (p : BoardElement) (c : Fin 7)
    (r : Fin 6) (h : findEmptyRow b c = some r) :
    insert b ((c : Nat) : Int) p = (setCell b r c p, none) := by
  simp only [insert, normIdx_coe, h]

lemma insert_of_findEmptyRow_none (b : Board) (p : BoardElement) (c : Fin 7)
    (h : findEmptyRow b c = none) :
    insert b ((c : Nat) : Int) p = (b, some InsertError.columnBusy) := by
  simp only [insert, normIdx_coe, h]


/-! ## Gravity invariant -/

lemma gravityOK_insert (b : Board) (hg : gravityOK b) (ci : Int) (p : BoardElement) :
    gravityOK (insert b ci p).1 := by
  rcases hn : normIdx ci with _ | c
  · simp only [insert, hn]
    exact hg
  · rcases findEmptyRow_spec b c with ⟨hnone, hall⟩ | ⟨r, hsome, hE, hbelow⟩
    · simp only [insert, hn, hnone]
      exact hg
    · simp only [insert, hn, hsome]
      intro c2 r1 r2 hlt h1
      by_cases hc2 : c2 = c
      · subst hc2
        by_cases hr2 : r2 = r
        · subst hr2
          by_cases hp : p = BoardElement.Empty
          · exfalso
            have hr1 : r1 ≠ r2 := by
              intro he
              rw [he] at hlt
              exact lt_irrefl _ hlt
            have hb1 : b r1 c2 ≠ BoardElement.Empty := by
              rw [setCell_frame b r2 c2 p r1 c2 (by tauto)] at h1
              exact h1
            exact (hg c2 r1 r2 hlt hb1) hE
          · rw [setCell_self]
            exact hp
        · rw [setCell_frame b r c2 p r2 c2 (by tauto)]
          by_cases hr1 : r1 = r
          · subst hr1
            exact hbelow r2 hlt
          · rw [setCell_frame b r c2 p r1 c2 (by tauto)] at h1
            exact hg c2 r1 r2 hlt h1
      · rw [setCell_frame b r c p r2 c2 (by tauto)]
        rw [setCell_frame b r c p r1 c2 (by tauto)] at h1
        exact hg c2 r1 r2 hlt h1

lemma gravityOK_playMoves (b : Board) (hg : gravityOK b)
    (moves : List (Int × BoardElement)) : gravityOK (playMoves b moves) := by
  induction moves generalizing b with
  | nil => exact hg
  | cons mv rest ih =>
    exact ih _ (gravityOK_insert b hg mv.1 mv.2)

lemma gravityOK_init : gravityOK Board.init := by
  intro c r r2 hlt h1
  exact absurd rfl h1


/-! ## Claim theorems -/

/-- C1: for every board and every non-Empty player marker,
`check_winning_move` agrees with the 69-window win condition. -/
theorem win_check_matches_69_windows (b : Board) (p : BoardElement)
    (hp : p ≠ BoardElement.Empty) :
    check_winning_move b p = specWin b p ∧ allWindows.length = 69 :=
  ⟨check_eq_spec b p, by decide⟩

theorem win_check_matches_69_windows_witness :
    BoardElement.Red ≠ BoardElement.Empty ∧
      (check_winning_move Board.init BoardElement.Red =
          specWin Board.init BoardElement.Red ∧ allWindows.length = 69) :=
  ⟨by decide, win_check_matches_69_windows Board.init BoardElement.Red (by decide)⟩

/-- C2: inserting into a column with an Empty cell succeeds and fills
the lowest Empty row; inserting into a full column raises the
column-busy error and leaves the grid unchanged. -/
theorem insert_succeeds_or_column_busy (b : Board) (p : BoardElement) (c : Fin 7) :
    ((∃ r : Fin 6, b r c = BoardElement.Empty) →
      ∃ r : Fin 6, b r c = BoardElement.Empty ∧
        (∀ r2 : Fin 6, r2 < r → b r2 c ≠ BoardElement.Empty) ∧
        insert b ((c : Nat) : Int) p = (setCell b r c p, none)) ∧
    ((∀ r : Fin 6, b r c ≠ BoardElement.Empty) →
      insert b ((c : Nat) : Int) p = (b, some InsertError.columnBusy)) := by
  rcases findEmptyRow_spec b c with ⟨hnone, hall⟩ | ⟨r, hsome, hE, hbelow⟩
  · constructor
    · rintro ⟨r0, hr0⟩
      exact absurd hr0 (hall r0)
    · intro _
      exact insert_of_findEmptyRow_none b p c hnone
  · constructor
    · intro _
      exact ⟨r, hE, hbelow, insert_of_findEmptyRow_some b p c r hsome⟩
    · intro hallne
      exact absurd hE (hallne r)

theorem insert_succeeds_or_column_busy_witness :
    ((∃ r : Fin 6, Board.init r 0 = BoardElement.Empty) ∧
      (∃ r : Fin 6, Board.init r 0 = BoardElement.Empty ∧
        (∀ r2 : Fin 6, r2 < r → Board.init r2 0 ≠ BoardElement.Empty) ∧
        insert Board.init (((0 : Fin 7) : Nat) : Int) BoardElement.Red =
          (setCell Board.init r 0 BoardElement.Red, none))) ∧
    ((∀ r : Fin 6, fullCol0 r 0 ≠ BoardElement.Empty) ∧
      insert fullCol0 (((0 : Fin 7) : Nat) : Int) BoardElement.Red =
        (fullCol0, some InsertError.columnBusy)) :=
  ⟨⟨by decide, (insert_succeeds_or_column_busy Board.init BoardElement.Red 0).1 (by decide)⟩,
   ⟨by decide, (insert_succeeds_or_column_busy fullCol0 BoardElement.Red 0).2 (by decide)⟩⟩

/-- C3: every sequence of insertions starting from the all-Empty board
preserves the gravity invariant: no Empty cell sits below a non-Empty
cell of the same column. -/
theorem gravity_invariant_preserved (moves : List (Int × BoardElement)) :
    gravityOK (playMoves Board.init moves) :=
  gravityOK_playMoves Board.init gravityOK_init moves

theorem gravity_invariant_preserved_witness :
    gravityOK (playMoves Board.init [(0, BoardElement.Red), (0, BoardElement.Yellow)]) :=
  gravity_invariant_preserved [(0, BoardElement.Red), (0, BoardElement.Yellow)]

/-- C4: `is_full` is true iff every one of the 42 cells is non-Empty. -/
theorem is_full_iff_all_cells_nonempty (b : Board) :
    is_full b = true ↔ ∀ (r : Fin 6) (c : Fin 7), b r c ≠ BoardElement.Empty := by
  unfold is_full elementBool
  simp [List.all_eq_true, List.mem_finRange]


/-- C5: a successful insertion writes the lowest Empty cell of the
chosen column and leaves every other cell as it was. -/
theorem insert_changes_exactly_one_cell (b : Board) (p : BoardElement) (c : Fin 7)
    (h : ∃ r : Fin 6, b r c = BoardElement.Empty) :
    ∃ r : Fin 6, b r c = BoardElement.Empty ∧
      (∀ r2 : Fin 6, r2 < r → b r2 c ≠ BoardElement.Empty) ∧
      (insert b ((c : Nat) : Int) p).2 = none ∧
      (insert b ((c : Nat) : Int) p).1 r c = p ∧
      (∀ (r2 : Fin 6) (c2 : Fin 7), ¬ (r2 = r ∧ c2 = c) →
        (insert b ((c : Nat) : Int) p).1 r2 c2 = b r2 c2) := by
  rcases findEmptyRow_spec b c with ⟨hnone, hall⟩ | ⟨r, hsome, hE, hbelow⟩
  · rcases h with ⟨r0, hr0⟩
    exact absurd hr0 (hall r0)
  · have hi := insert_of_findEmptyRow_some b p c r hsome
    refine ⟨r, hE, hbelow, ?_, ?_, ?_⟩
    · rw [hi]
    · rw [hi]
      exact setCell_self b r c p
    · intro r2 c2 hne
      rw [hi]
      exact setCell_frame b r c p r2 c2 hne

theorem insert_changes_exactly_one_cell_witness :
    (∃ r : Fin 6, Board.init r 0 = BoardElement.Empty) ∧
      (∃ r : Fin 6, Board.init r 0 = BoardElement.Empty ∧
        (∀ r2 : Fin 6, r2 < r → Board.init r2 0 ≠ BoardElement.Empty) ∧
        (insert Board.init (((0 : Fin 7) : Nat) : Int) BoardElement.Red).2 = none ∧
        (insert Board.init (((0 : Fin 7) : Nat) : Int) BoardElement.Red).1 r 0 =
          BoardElement.Red ∧
        (∀ (r2 : Fin 6) (c2 : Fin 7), ¬ (r2 = r ∧ c2 = 0) →
          (insert Board.init (((0 : Fin 7) : Nat) : Int) BoardElement.Red).1 r2 c2 =
            Board.init r2 c2)) :=
  ⟨by decide, insert_changes_exactly_one_cell Board.init BoardElement.Red 0 (by decide)⟩

/-- C6: `check_winning_move` is pure: repeated calls on the same board
all return the same result and never change any cell. -/
theorem check_winning_move_idempotent (b : Board) (p : BoardElement) (n : Nat) :
    (checkCalls b p n).1 = List.replicate n (check_winning_move b p) ∧
    (checkCalls b p n).2 = b := by
  induction n with
  | zero => exact ⟨rfl, rfl⟩
  | succ k ih =>
    simp [checkCalls, check_winning_move_run, ih.1, ih.2, List.replicate_succ]

/-- C7: the rendering produces 6 display rows, the k-th showing board
row `5 - k`, each row the 7 glyphs joined by the separator. -/
theorem print_rows_top_down (b : Board) :
    (Board.print b).length = 6 ∧
    ∀ k : Fin 6, (Board.print b).getD (k : Nat) "" = rowGlyphs b ⟨5 - (k : Nat), by omega⟩ := by
  refine ⟨rfl, ?_⟩
  intro k
  fin_cases k <;> rfl

/-- C8: `change_player` swaps the two player markers, never yields
Empty, and is an involution on them. -/
theorem change_player_alternates (p : BoardElement)
    (h : p = BoardElement.Red ∨ p = BoardElement.Yellow) :
    (change_player p = BoardElement.Red ∨ change_player p = BoardElement.Yellow) ∧
    change_player p ≠ p ∧ change_player p ≠ BoardElement.Empty ∧
    change_player (change_player p) = p := by
  rcases h with rfl | rfl
  · exact ⟨Or.inr (by decide), by decide, by decide, by decide⟩
  · exact ⟨Or.inl (by decide), by decide, by decide, by decide⟩

theorem change_player_alternates_witness :
    (BoardElement.Red = BoardElement.Red ∨ BoardElement.Red = BoardElement.Yellow) ∧
      ((change_player BoardElement.Red = BoardElement.Red ∨
          change_player BoardElement.Red = BoardElement.Yellow) ∧
        change_player BoardElement.Red ≠ BoardElement.Red ∧
        change_player BoardElement.Red ≠ BoardElement.Empty ∧
        change_player (change_player BoardElement.Red) = BoardElement.Red) :=
  ⟨Or.inl rfl, change_player_alternates BoardElement.Red (Or.inl rfl)⟩

/-- C9: a column index in `[-7, -1]` wraps (numpy negative indexing)
and behaves as the index plus 7; an index of 7 or more raises an index
error distinct from the column-busy error. -/
theorem insert_negative_index_wraps (b : Board) (p : BoardElement) :
    (∀ ci : Int, -7 ≤ ci → ci ≤ -1 → insert b ci p = insert b (ci + 7) p) ∧
    (∀ ci : Int, 7 ≤ ci → insert b ci p = (b, some InsertError.indexError)) ∧
    InsertError.indexError ≠ InsertError.columnBusy := by
  refine ⟨?_, ?_, by decide⟩
  · intro ci h1 h2
    have hn : normIdx ci = normIdx (ci + 7) := by
      unfold normIdx
      split_ifs <;> first | rfl | (exfalso; omega)
    unfold insert
    rw [hn]
  · intro ci h
    have hn : normIdx ci = none := by
      unfold normIdx
      split_ifs <;> first | rfl | (exfalso; omega)
    unfold insert
    rw [hn]

theorem insert_negative_index_wraps_witness :
    ((-7 : Int) ≤ -3 ∧ (-3 : Int) ≤ -1 ∧
      insert Board.init (-3) BoardElement.Red =
        insert Board.init (-3 + 7) BoardElement.Red) ∧
    ((7 : Int) ≤ 9 ∧
      insert Board.init 9 BoardElement.Red = (Board.init, some InsertError.indexError)) :=
  ⟨⟨by decide, by decide,
    (insert_negative_index_wraps Board.init BoardElement.Red).1 (-3) (by decide) (by decide)⟩,
   ⟨by decide,
    (insert_negative_index_wraps Board.init BoardElement.Red).2.1 9 (by decide)⟩⟩

/-- C10: passing Empty as the player makes the win check count runs of
Empty cells; on the all-Empty starting board it returns true. -/
theorem check_empty_player_counts_empty_runs :
    (∀ b : Board, check_winning_move b BoardElement.Empty = specWin b BoardElement.Empty) ∧
    check_winning_move Board.init BoardElement.Empty = true := by
  refine ⟨fun b => check_eq_spec b BoardElement.Empty, ?_⟩
  rw [check_eq_spec]
  decide

end Connect4
